import Mathlib

/-!
Verification development for the eslint-plugin-functype pattern detectors.

Each namespace below is a shallow embedding of one rule module of the
repository: the fragment of the ESTree abstract syntax tree that the rule
inspects is modelled as an inductive type, and the visitor callback of the
rule is translated into a Lean function from a node (plus the ancestor
context the rule reads through parent pointers) to the list of violation
reports it emits.  Reports carry the message identifier, the anchor node
and the interpolation data, exactly as passed to context.report in the
source.
-/

namespace FlatMapRule

/-- Message identifiers declared in meta.messages of src/rules/prefer-flatmap.ts. -/
inductive MessageId where
  | preferFlatMapOverMapFlat
  | preferFlatMapChain
  | preferFlatMapNested
deriving DecidableEq

mutual
/-- Expression fragment of the ESTree AST inspected by prefer-flatmap: call
expressions, non-computed member expressions (the property rendered as its
identifier name), arrow or function callbacks with expression or block
bodies, array literals, identifiers, and an opaque constructor for every
other expression shape (which the rule only ever probes for a .type tag it
does not recognize). -/
inductive Expr : Type where
  | ident (name : String) : Expr
  | call (callee : Expr) (args : List Expr) : Expr
  | member (obj : Expr) (prop : String) : Expr
  | arrowExpr (body : Expr) : Expr
  | arrowBlock (stmts : List Stmt) : Expr
  | arrayLit (elems : List Expr) : Expr
  | otherExpr : Expr

/-- Statement fragment: return statements (with optional argument) and an
opaque constructor for all other statements, which returnsArray skips. -/
inductive Stmt : Type where
  | ret (arg : Option Expr) : Stmt
  | otherStmt : Stmt
end

/-- One violation report of the rule: message id plus the anchor node. -/
structure Report where
  msg : MessageId
  anchor : Expr

/-- Method names the source treats as returning arrays inside returnsArray. -/
def arrayReturningMethods : List String := ["map", "filter", "slice", "concat", "split"]

/-- Check used twice inside returnsArray: a call expression whose callee is a
member expression with a method name in the fixed array-returning list. -/
def isArrayReturningCall : Expr → Bool
  | .call (.member _ m) _ => m ∈ arrayReturningMethods
  | _ => false

/-- Translation of returnsArray from src/rules/prefer-flatmap.ts: the body is
an array literal; or a call to one of the array-returning methods; or, for a
block body, some return statement whose argument has one of those two shapes.
Nodes without a function body yield false. -/
def returnsArray (functionNode : Expr) : Bool :=
  match functionNode with
  | .arrowExpr body =>
      (match body with
       | .arrayLit _ => true
       | _ => isArrayReturningCall body)
  | .arrowBlock stmts =>
      stmts.any fun s =>
        match s with
        | .ret (some a) =>
            (match a with
             | .arrayLit _ => true
             | _ => isArrayReturningCall a)
        | _ => false
  | _ => false

/-- Translation of isMapFollowedByFlat: the node is a call whose callee is a
member access named flat, and whose receiver is itself a call whose callee is
a member access named map. -/
def isMapFollowedByFlat (node : Expr) : Bool :=
  match node with
  | .call (.member obj prop) _ =>
      prop = "flat" &&
        (match obj with
         | .call (.member _ p2) _ => p2 = "map"
         | _ => false)
  | _ => false

/-- True for arrow function expressions and function expressions, the two
callback shapes isNestedMapReturningArrays accepts. -/
def isFunctionLike : Expr → Bool
  | .arrowExpr _ => true
  | .arrowBlock _ => true
  | _ => false

/-- Translation of isNestedMapReturningArrays: a .map(cb) call whose first
argument is a function-like callback satisfying returnsArray. -/
def isNestedMapReturningArrays (node : Expr) : Bool :=
  match node with
  | .call (.member _ prop) args =>
      prop = "map" &&
        (match args.head? with
         | some cb => isFunctionLike cb && returnsArray cb
         | none => false)
  | _ => false

/-- The second check of the CallExpression visitor (chained .map().map()):
when the node is a .map call whose receiver is itself a .map call whose first
callback satisfies returnsArray, the rule reports anchored on that receiver
(the first map call); otherwise control falls through to the nested check. -/
def chainedTarget (node : Expr) : Option Expr :=
  match node with
  | .call (.member obj prop) _ =>
      if prop = "map" then
        match obj with
        | .call (.member o2 p2) args2 =>
            if p2 = "map" then
              match args2.head? with
              | some cb => if returnsArray cb then some (.call (.member o2 p2) args2) else none
              | none => none
            else none
        | _ => none
      else none
  | _ => none

/-- Parent context the visitor reads through node.parent and
node.parent.parent.  The real tree supplies the actual ancestors; the
theorems instantiate this with them. -/
structure Ctx where
  parent : Option Expr := none
  grandparent : Option Expr := none

/-- First suppression of the nested check: the node is the receiver of a
member access named flat that is itself called (the map().flat() case 1
territory). -/
def skipParentFlat (ctx : Ctx) : Bool :=
  match ctx.parent, ctx.grandparent with
  | some (.member _ p), some (.call _ _) => p = "flat"
  | _, _ => false

/-- Second suppression of the nested check: the receiver of the node is
itself a .map call (the node is the outer half of a chain). -/
def skipObjectIsMap (node : Expr) : Bool :=
  match node with
  | .call (.member (.call (.member _ p2) _) _) _ => p2 = "map"
  | _ => false

/-- Third suppression of the nested check: the node feeds into an outer .map
call (the node is the inner half of a chain). -/
def skipFeedsIntoMap (ctx : Ctx) : Bool :=
  match ctx.parent, ctx.grandparent with
  | some (.member _ _), some (.call (.member _ p) _) => p = "map"
  | _, _ => false

/-- Translation of the CallExpression visitor of prefer-flatmap: the three
checks in their strict precedence order, each earlier match returning before
the later checks run. -/
def visitCall (checkNestedMaps : Bool) (node : Expr) (ctx : Ctx) : List Report :=
  if isMapFollowedByFlat node then
    [⟨.preferFlatMapOverMapFlat, node⟩]
  else
    match chainedTarget node with
    | some obj => [⟨.preferFlatMapChain, obj⟩]
    | none =>
        if checkNestedMaps && isNestedMapReturningArrays node then
          if skipParentFlat ctx then []
          else if skipObjectIsMap node then []
          else if skipFeedsIntoMap ctx then []
          else [⟨.preferFlatMapNested, node⟩]
        else []

/-- Builder for the inner map call recv.map(cb). -/
def mapCall (recv cb : Expr) : Expr := .call (.member recv "map") [cb]

/-- Builder for the whole recv.map(cb).flat() expression. -/
def mapFlat (recv cb : Expr) : Expr := .call (.member (mapCall recv cb) "flat") []

/-- The real ancestor context of the inner map call inside recv.map(cb).flat():
its parent is the member access .flat and its grandparent the .flat() call. -/
def innerCtx (recv cb : Expr) : Ctx :=
  ⟨some (.member (mapCall recv cb) "flat"), some (mapFlat recv cb)⟩

theorem chainedTarget_shape (callee : Expr) (args : List Expr) (x : Expr)
    (h : chainedTarget (.call callee args) = some x) :
    ∃ p, callee = .member x p := by
  unfold chainedTarget at h
  cases callee with
  | member obj prop =>
      by_cases hp : prop = "map"
      · simp [hp] at h
        cases obj with
        | call c2 a2 =>
            cases c2 with
            | member o2 p2 =>
                by_cases hp2 : p2 = "map"
                · simp [hp2] at h
                  cases ha : a2.head? with
                  | none => simp [ha] at h
                  | some cb =>
                      simp [ha] at h
                      by_cases hr : returnsArray cb = true
                      · simp [hr] at h
                        exact ⟨prop, by rw [← h, hp2]⟩
                      · simp [hr] at h
                · simp [hp2] at h
            | ident _ => simp at h
            | call _ _ => simp at h
            | arrowExpr _ => simp at h
            | arrowBlock _ => simp at h
            | arrayLit _ => simp at h
            | otherExpr => simp at h
        | ident _ => simp at h
        | member _ _ => simp at h
        | arrowExpr _ => simp at h
        | arrowBlock _ => simp at h
        | arrayLit _ => simp at h
        | otherExpr => simp at h
      · simp [hp] at h
  | ident _ => simp [chainedTarget] at h
  | call _ _ => simp [chainedTarget] at h
  | arrowExpr _ => simp [chainedTarget] at h
  | arrowBlock _ => simp [chainedTarget] at h
  | arrayLit _ => simp [chainedTarget] at h
  | otherExpr => simp [chainedTarget] at h

theorem expr_ne_mapCall (e : Expr) (p : String) (a : List Expr) :
    e ≠ Expr.call (.member e p) a := by
  intro h
  have h2 := congrArg sizeOf h
  simp [Expr.call.sizeOf_spec, Expr.member.sizeOf_spec] at h2
  omega

/-- C1: for every call expression of the shape recv.map(cb).flat(), for every
callback cb, the prefer-flatmap visitor invoked on that expression emits
exactly the one map-then-flat report (preferFlatMapOverMapFlat) anchored on
it, in any parent context and under either checkNestedMaps setting; and the
separate visitor invocation on the inner recv.map(cb) call node, in its real
parent context, emits no preferFlatMapNested report and no report anchored on
that inner map call node. -/
theorem C1_map_flat_no_double_report (recv cb : Expr) (b : Bool) (ctx : Ctx) :
    visitCall b (mapFlat recv cb) ctx = [⟨.preferFlatMapOverMapFlat, mapFlat recv cb⟩] ∧
    List.Forall
      (fun r => r.msg ≠ MessageId.preferFlatMapNested ∧ r.anchor ≠ mapCall recv cb)
      (visitCall b (mapCall recv cb) (innerCtx recv cb)) := by
  constructor
  · simp [visitCall, isMapFollowedByFlat, mapFlat, mapCall]
  · have hflat : isMapFollowedByFlat (mapCall recv cb) = false := by
      simp [isMapFollowedByFlat, mapCall]
    cases h : chainedTarget (mapCall recv cb) with
    | none =>
        have hv : visitCall b (mapCall recv cb) (innerCtx recv cb) = [] := by
          unfold visitCall
          rw [hflat, h]
          simp [skipParentFlat, innerCtx, mapFlat]
        rw [hv]
        simp [List.Forall]
    | some obj =>
        obtain ⟨p, hp⟩ := chainedTarget_shape (.member recv "map") [cb] obj h
        have hobj : obj = recv := by
          injection hp with h1 h2
          exact h1.symm
        have hv : visitCall b (mapCall recv cb) (innerCtx recv cb) =
            [⟨.preferFlatMapChain, obj⟩] := by
          unfold visitCall
          rw [hflat, h]
          simp
        rw [hv]
        simp [List.Forall]
        rw [hobj]
        exact expr_ne_mapCall recv "map" [cb]

end FlatMapRule

namespace EitherRule

/-- Statement fragment the prefer-either rule inspects inside a catch body:
the hasRethrow scan only asks whether stmt.type equals ThrowStatement, so one
constructor for throw statements and one opaque constructor (expression
statements such as logging calls, declarations, and so on) suffice. -/
inductive EStmt where
  | throwStmt
  | exprStmt
  | otherStmt
deriving DecidableEq

/-- True exactly when the statement node has type ThrowStatement. -/
def isThrowStmt : EStmt → Bool
  | .throwStmt => true
  | _ => false

/-- A catch clause: handler.body.body is the list of top-level statements of
the handler block. -/
structure CatchClause where
  body : List EStmt

/-- A try statement: the rule only reads node.handler (absent for
try/finally) and its block body. -/
structure TryStmt where
  handler : Option CatchClause

/-- Message identifiers of prefer-either used by the two visitors below. -/
inductive EMessage where
  | preferEitherOverTryCatch
  | preferEitherOverThrow
deriving DecidableEq

/-- Translation of the TryStatement visitor of the prefer-either rule (the
guarded variant with the re-throw exemption): skip test files when
allowThrowInTests is on; skip when some top-level statement of the catch body
is a throw statement; otherwise report preferEitherOverTryCatch. -/
def visitTry (allowThrowInTests isTestFile : Bool) (node : TryStmt) : List EMessage :=
  if allowThrowInTests && isTestFile then []
  else
    match node.handler with
    | some h =>
        if h.body.any isThrowStmt then []
        else [.preferEitherOverTryCatch]
    | none => [.preferEitherOverTryCatch]

/-- Ancestor node kinds the ThrowStatement visitor can meet while walking
node.parent upward: catch clauses, function boundaries (function
declarations, function expressions, arrow functions), blocks, try
statements, and anything else. -/
inductive ENode where
  | catchClause
  | functionNode
  | blockNode
  | tryNode
  | otherNode
deriving DecidableEq

/-- True exactly when the ancestor node has type CatchClause. -/
def isCatchClauseNode : ENode → Bool
  | .catchClause => true
  | _ => false

/-- True for the function-boundary node kinds; used only to state the
walk-stops-at-function-boundary reading of the specification. -/
def isFunctionBoundaryNode : ENode → Bool
  | .functionNode => true
  | _ => false

/-- Translation of the ThrowStatement visitor of the prefer-either rule (the
variant with the ancestor loop): skip test files when configured; walk the
whole ancestor chain and suppress as soon as any ancestor is a CatchClause;
otherwise report preferEitherOverThrow.  The loop has no stop at function
boundaries. -/
def visitThrow (allowThrowInTests isTestFile : Bool) (ancestors : List ENode) : List EMessage :=
  if allowThrowInTests && isTestFile then []
  else if ancestors.any isCatchClauseNode then []
  else [.preferEitherOverThrow]

/-- C2: in a non-test file under default configuration, the try-statement
visitor reports preferEitherOverTryCatch if and only if no top-level
statement of the catch handler body is a throw statement; a catch body
containing a throw is never reported and a catch body that only logs always
is. -/
theorem C2_try_rethrow_exemption (body : List EStmt) :
    visitTry true false ⟨some ⟨body⟩⟩ = [EMessage.preferEitherOverTryCatch] ↔
      body.any isThrowStmt = false := by
  unfold visitTry
  cases h : body.any isThrowStmt <;> simp [h]

/-- C8 counterexample: a throw statement inside a function that is itself
nested within a catch block.  No catch clause occurs on the ancestor path
before the nearest enclosing function boundary, so the claim predicts a
preferEitherOverThrow report, but the visitor walks past the function
boundary, finds the outer CatchClause and emits nothing. -/
theorem C8_counterexample :
    ((List.takeWhile (fun n => !isFunctionBoundaryNode n)
        [ENode.blockNode, ENode.functionNode, ENode.blockNode,
         ENode.catchClause, ENode.tryNode]).any isCatchClauseNode = false) ∧
    visitThrow true false
        [ENode.blockNode, ENode.functionNode, ENode.blockNode,
         ENode.catchClause, ENode.tryNode] = [] := by
  decide

/-- C8 amended: in a non-test file under default configuration, the
throw-statement visitor reports preferEitherOverThrow if and only if no
ancestor anywhere on the path to the root is a catch-handler node; the
ancestor walk does not stop at function boundaries, so a throw inside a
function nested within a catch block is suppressed. -/
theorem C8_throw_suppressed_by_any_catch_ancestor (ancestors : List ENode) :
    visitThrow true false ancestors = [EMessage.preferEitherOverThrow] ↔
      ancestors.any isCatchClauseNode = false := by
  unfold visitThrow
  cases h : ancestors.any isCatchClauseNode <;> simp [h]

end EitherRule

namespace DoRule

/-- Expression fragment inspected by the prefer-do-notation chained-flatMap
check: identifiers, call expressions, non-computed member expressions with an
identifier property, and an opaque constructor for other shapes. -/
inductive DExpr where
  | ident (name : String)
  | call (callee : DExpr) (args : List DExpr)
  | member (obj : DExpr) (prop : String)
  | otherExpr

/-- Translation of isChainedMethodCall from src/utils/functype-detection.ts:
the node is a call whose callee is a member access whose identifier property
equals the given method name. -/
def isChainedMethodCall (node : DExpr) (methodName : String) : Bool :=
  match node with
  | .call (.member _ p) _ => p = methodName
  | _ => false

/-- The chainable method names recognized while walking down the chain. -/
def chainableMethods : List String := ["flatMap", "map", "filter", "fold"]

/-- Loop body of getChainDepth: while the current call has a member callee
whose receiver is itself a call, bump the depth when the current method name
is chainable, then descend into that receiver call. -/
def getChainDepthAux : DExpr → Nat → Nat
  | .call (.member (.call c2 a2) p) _, depth =>
      getChainDepthAux (.call c2 a2) (if p ∈ chainableMethods then depth + 1 else depth)
  | _, depth => depth

/-- Translation of getChainDepth from src/rules/prefer-do-notation.ts:
depth starts at 1 and the loop above runs on the node. -/
def getChainDepth (node : DExpr) : Nat := getChainDepthAux node 1

/-- Message identifier plus interpolation data of the chained-method report:
the count placeholder receives chainDepth.toString(). -/
structure DoReport where
  count : String
deriving DecidableEq

/-- Translation of checkChainedMethods: nothing unless the node is a .flatMap
call; report preferDoForChainedMethods with the stringified depth when the
depth reaches minChainDepth (default 3). -/
def checkChainedMethods (minChainDepth : Nat) (node : DExpr) : List DoReport :=
  if !isChainedMethodCall node "flatMap" then []
  else
    let chainDepth := getChainDepth node
    if minChainDepth ≤ chainDepth then [⟨toString chainDepth⟩] else []

/-- Builder for a chain of k consecutive .flatMap(arg) links over a base. -/
def mkChain (base arg : DExpr) : Nat → DExpr
  | 0 => base
  | k + 1 => .call (.member (mkChain base arg k) "flatMap") [arg]

/-- True exactly when the node has type CallExpression. -/
def isCallExpr : DExpr → Bool
  | .call _ _ => true
  | _ => false

theorem getChainDepthAux_mkChain (base arg : DExpr) (hbase : isCallExpr base = false) :
    ∀ k d, getChainDepthAux (mkChain base arg (k + 1)) d = d + k := by
  intro k
  induction k with
  | zero =>
      intro d
      cases base with
      | ident n => simp [mkChain, getChainDepthAux]
      | call c a => simp [isCallExpr] at hbase
      | member o p => simp [mkChain, getChainDepthAux]
      | otherExpr => simp [mkChain, getChainDepthAux]
  | succ k ih =>
      intro d
      have hc : mkChain base arg (k + 1) =
          .call (.member (mkChain base arg k) "flatMap") [arg] := rfl
      rw [show mkChain base arg (k + 1 + 1) =
          .call (.member (mkChain base arg (k + 1)) "flatMap") [arg] from rfl, hc]
      rw [show getChainDepthAux
          (.call (.member (.call (.member (mkChain base arg k) "flatMap") [arg]) "flatMap") [arg]) d =
          getChainDepthAux (.call (.member (mkChain base arg k) "flatMap") [arg])
            (if "flatMap" ∈ chainableMethods then d + 1 else d) from rfl]
      rw [← hc, ih]
      have : ("flatMap" ∈ chainableMethods) := by decide
      simp [this]
      omega

/-- The chain depth computed for k consecutive .flatMap links over a non-call
base is exactly k. -/
theorem getChainDepth_mkChain (base arg : DExpr) (hbase : isCallExpr base = false)
    (k : Nat) (hk : 1 ≤ k) : getChainDepth (mkChain base arg k) = k := by
  obtain ⟨k2, rfl⟩ : ∃ k2, k = k2 + 1 := ⟨k - 1, by omega⟩
  unfold getChainDepth
  rw [getChainDepthAux_mkChain base arg hbase]
  omega

/-- C3: under the default minimum chain depth 3, exactly 2 consecutive
.flatMap calls over a non-call receiver produce no preferDoForChainedMethods
report, while k greater or equal 3 consecutive .flatMap calls produce one
report whose interpolated count is the stringified actual chain depth k. -/
theorem C3_chained_flatmap_depth_boundary (base arg : DExpr) (k : Nat)
    (hbase : isCallExpr base = false) (hk : 3 ≤ k) :
    checkChainedMethods 3 (mkChain base arg 2) = [] ∧
    checkChainedMethods 3 (mkChain base arg k) = [⟨toString k⟩] := by
  constructor
  · unfold checkChainedMethods
    have h1 : isChainedMethodCall (mkChain base arg 2) "flatMap" = true := by
      simp [mkChain, isChainedMethodCall]
    have h2 : getChainDepth (mkChain base arg 2) = 2 :=
      getChainDepth_mkChain base arg hbase 2 (by omega)
    rw [h1, h2]
    simp
  · unfold checkChainedMethods
    obtain ⟨k2, rfl⟩ : ∃ k2, k = k2 + 1 := ⟨k - 1, by omega⟩
    have h1 : isChainedMethodCall (mkChain base arg (k2 + 1)) "flatMap" = true := by
      simp [mkChain, isChainedMethodCall]
    have h2 : getChainDepth (mkChain base arg (k2 + 1)) = k2 + 1 :=
      getChainDepth_mkChain base arg hbase (k2 + 1) (by omega)
    rw [h1, h2]
    simp [hk]

/-- C3 witness: at the concrete receiver identifier and k equal 3, the
hypotheses hold and the two evaluations agree with the theorem. -/
theorem C3_witness :
    isCallExpr (DExpr.ident "opt") = false ∧ 3 ≤ 3 ∧
    checkChainedMethods 3 (mkChain (DExpr.ident "opt") DExpr.otherExpr 2) = [] ∧
    checkChainedMethods 3 (mkChain (DExpr.ident "opt") DExpr.otherExpr 3) = [⟨"3"⟩] := by
  refine ⟨by decide, by decide, ?_⟩
  have h := C3_chained_flatmap_depth_boundary (DExpr.ident "opt") DExpr.otherExpr 3
    (by decide) (by decide)
  simpa using h

end DoRule

namespace OptionRule

/-- TypeScript type-node fragment inspected by prefer-option: the null and
undefined keywords, identifier-named type references with at most one type
argument (the shapes the rule renders and probes), and an opaque constructor
for other type nodes. -/
inductive TSType where
  | nullKeyword
  | undefinedKeyword
  | typeRef (name : String) (arg : Option TSType)
  | otherType

/-- True exactly when the arm has type TSNullKeyword or TSUndefinedKeyword. -/
def isNullOrUndef : TSType → Bool
  | .nullKeyword => true
  | .undefinedKeyword => true
  | _ => false

/-- Rendered source text of a type node, as sourceCode.getText returns it for
the fragment above. -/
def renderType : TSType → String
  | .nullKeyword => "null"
  | .undefinedKeyword => "undefined"
  | .typeRef n none => n
  | .typeRef n (some a) => n ++ "<" ++ renderType a ++ ">"
  | .otherType => "unknown"

/-- Rendered source text of the whole union node. -/
def renderUnion (arms : List TSType) : String :=
  String.intercalate " | " (arms.map renderType)

/-- Model of the JavaScript startsWith test on rendered text: the characters
of the candidate form a prefix of the characters of the text. -/
def textStartsWith (s pre : String) : Bool := pre.toList.isPrefixOf s.toList

/-- The built-in container type names hard-coded in isFunctypeType. -/
def builtinTypeNames : List String := ["Option", "Either", "List", "LazyList", "Task", "Try"]

/-- Translation of isFunctypeType from src/utils/functype-detection.ts with a
legacy import set: true when the node is a type reference with an identifier
name that is in the import set or in the built-in container list. -/
def isFunctypeType (node : TSType) (imports : List String) : Bool :=
  match node with
  | .typeRef name _ => name ∈ imports || name ∈ builtinTypeNames
  | _ => false

/-- Expression fragment needed by isFunctypeCall while the ancestor walk of
isAlreadyUsingFunctype crosses expression nodes. -/
inductive OExpr where
  | identE (name : String)
  | callE (callee : OExpr) (args : List OExpr)
  | memberE (obj : OExpr) (prop : String)
  | otherE

/-- The instance method names isFunctypeCall accepts on any receiver. -/
def commonMonadMethods : List String :=
  ["map", "flatMap", "filter", "fold", "foldLeft", "foldRight", "getOrElse",
   "orElse", "isEmpty", "nonEmpty", "isDefined", "isSome", "isNone", "isLeft",
   "isRight", "toArray"]

/-- Translation of isFunctypeCall from src/utils/functype-detection.ts: a
call on an identifier receiver counts when the receiver name is imported, or
when the receiver and method match one of the documented static constructor
pairs, or when the method name is a common monad instance method; a call on
any other member expression counts when the method name is a common monad
instance method. -/
def isFunctypeCall (node : OExpr) (imports : List String) : Bool :=
  match node with
  | .callE (.memberE (.identE objName) methodName) _ =>
      if objName ∈ imports then true
      else if (objName = "Option" && methodName ∈ ["some", "none", "of"])
           || (objName = "Either" && methodName ∈ ["left", "right", "of"])
           || (objName = "List" && methodName ∈ ["of", "from", "empty"]) then true
      else methodName ∈ commonMonadMethods
  | .callE (.memberE _ methodName) _ => methodName ∈ commonMonadMethods
  | _ => false

/-- One ancestor node on the parent chain above a union type node: a type
node, an expression node, or any other node kind (declarators, annotations,
statements), which satisfies neither predicate. -/
inductive ANode where
  | aType (t : TSType)
  | aExpr (e : OExpr)
  | aOther

/-- Whether one ancestor satisfies isFunctypeCall or isFunctypeType. -/
def anodeUsesFunctype (imports : List String) : ANode → Bool
  | .aType t => isFunctypeType t imports
  | .aExpr e => isFunctypeCall e imports
  | .aOther => false

/-- Translation of isAlreadyUsingFunctype: walk the ancestor chain and answer
whether any ancestor satisfies isFunctypeCall or isFunctypeType. -/
def isAlreadyUsingFunctype (ancestors : List ANode) (imports : List String) : Bool :=
  ancestors.any (anodeUsesFunctype imports)

/-- Report payload of the guarded prefer-option variant: the interpolation
data for the type and nullable placeholders. -/
structure OReport where
  typeData : String
  nullableData : String
deriving DecidableEq

/-- Translation of the TSUnionType visitor of the guarded prefer-option
variant: at least two arms, at least one null or undefined arm, exactly one
other arm; skip when that arm is a functype container type, when an ancestor
is already functional style, or when its rendered text starts with the
Option prefix; otherwise report with the rendered arm and union texts. -/
def visitUnionGuarded (imports : List String) (arms : List TSType)
    (ancestors : List ANode) : List OReport :=
  if arms.length < 2 then []
  else if !(arms.any isNullOrUndef) then []
  else
    match arms.filter (fun t => !isNullOrUndef t) with
    | [t] =>
        if isFunctypeType t imports then []
        else if isAlreadyUsingFunctype ancestors imports then []
        else if textStartsWith (renderType t) "Option<" then []
        else [⟨renderType t, renderUnion arms⟩]
    | _ => []

/-- Report payload of the fixable prefer-option variant: interpolation data
plus the replacement text its fix callback hands to fixer.replaceText for the
union node span. -/
structure OFixReport where
  typeData : String
  nullableData : String
  fixText : String
deriving DecidableEq

/-- Translation of the TSUnionType visitor of the fixable prefer-option
variant (src/rules/prefer-option.ts): same arm arithmetic, only the textual
Option prefix suppression, and a fix that replaces the union node text with
Option wrapped around the non-null arm text. -/
def visitUnionFixable (arms : List TSType) : List OFixReport :=
  if arms.length < 2 then []
  else if !(arms.any isNullOrUndef) then []
  else
    match arms.filter (fun t => !isNullOrUndef t) with
    | [t] =>
        if textStartsWith (renderType t) "Option<" then []
        else [⟨renderType t, renderUnion arms, "Option<" ++ renderType t ++ ">"⟩]
    | _ => []

/-- Semantics of fixer.replaceText on the union node span: the file is the
text before the node, the node text, and the text after the node, and only
the node span is replaced. -/
def replaceNodeSpan (pre post repl : String) : String := pre ++ repl ++ post

/-- C4: the guarded prefer-option visitor reports if and only if the union
has at least two arms, at least one arm is exactly null or undefined, exactly
one arm is neither, that sole arm is not a container-type reference (neither
by isFunctypeType nor by the Option prefix match on its rendered text), and
no ancestor expression is already functional style; in particular a union
with two or more non-null arms is never flagged. -/
theorem length_filter_split {α : Type} (p : α → Bool) (l : List α) :
    (l.filter p).length + (l.filter (fun a => !p a)).length = l.length := by
  induction l with
  | nil => rfl
  | cons a l ih =>
      cases hp : p a <;> simp [List.filter_cons, hp] <;> omega

theorem two_le_of_one_nonnull (arms : List TSType) (t : TSType)
    (h2 : arms.any isNullOrUndef = true)
    (hfil : arms.filter (fun t => !isNullOrUndef t) = [t]) :
    2 ≤ arms.length := by
  have hsplit := length_filter_split (fun t => !isNullOrUndef t) arms
  rw [hfil] at hsplit
  have hnn : arms.filter (fun a => !(!isNullOrUndef a)) = arms.filter isNullOrUndef := by
    simp
  rw [hnn] at hsplit
  rw [List.any_eq_true] at h2
  obtain ⟨x, hx, hpx⟩ := h2
  have hmem : x ∈ arms.filter isNullOrUndef := List.mem_filter.mpr ⟨hx, hpx⟩
  have hpos : 0 < (arms.filter isNullOrUndef).length := List.length_pos_of_mem hmem
  simp at hsplit
  omega

theorem C4_union_report_conditions (imports : List String) (arms : List TSType)
    (ancestors : List ANode) :
    (visitUnionGuarded imports arms ancestors ≠ [] ↔
      (2 ≤ arms.length ∧ arms.any isNullOrUndef = true ∧
       (arms.filter (fun t => !isNullOrUndef t)).length = 1 ∧
       (arms.filter (fun t => !isNullOrUndef t)).all
         (fun t => !isFunctypeType t imports &&
                   !textStartsWith (renderType t) "Option<") = true ∧
       isAlreadyUsingFunctype ancestors imports = false)) ∧
    (2 ≤ (arms.filter (fun t => !isNullOrUndef t)).length →
      visitUnionGuarded imports arms ancestors = []) := by
  by_cases h1 : arms.length < 2
  · have hv : visitUnionGuarded imports arms ancestors = [] := by
      simp [visitUnionGuarded, h1]
    refine ⟨?_, fun _ => hv⟩
    rw [hv]
    constructor
    · intro h
      exact absurd rfl h
    · rintro ⟨ha, -, -, -, -⟩
      exact absurd ha (by omega)
  · cases h2 : arms.any isNullOrUndef with
    | false =>
        have hv : visitUnionGuarded imports arms ancestors = [] := by
          simp [visitUnionGuarded, h1, h2]
        refine ⟨?_, fun _ => hv⟩
        rw [hv]
        constructor
        · intro h
          exact absurd rfl h
        · rintro ⟨-, hany, -, -, -⟩
          exact absurd hany (by decide)
    | true =>
        rcases hfil : arms.filter (fun t => !isNullOrUndef t) with _ | ⟨t, _ | ⟨t2, rest⟩⟩
        · have hv : visitUnionGuarded imports arms ancestors = [] := by
            simp [visitUnionGuarded, h1, h2, hfil]
          refine ⟨?_, fun hlen => hv⟩
          rw [hv]
          constructor
          · intro h
            exact absurd rfl h
          · rintro ⟨-, -, hone, -, -⟩
            exact absurd hone (by decide)
        · have hlen2 : 2 ≤ arms.length := two_le_of_one_nonnull arms t h2 hfil
          have hv : visitUnionGuarded imports arms ancestors =
              (if isFunctypeType t imports then []
               else if isAlreadyUsingFunctype ancestors imports then []
               else if textStartsWith (renderType t) "Option<" then []
               else [⟨renderType t, renderUnion arms⟩]) := by
            simp [visitUnionGuarded, h1, h2, hfil]
          refine ⟨?_, fun hlen => by simp at hlen⟩
          rw [hv]
          cases hA : isFunctypeType t imports <;>
            cases hB : isAlreadyUsingFunctype ancestors imports <;>
              cases hC : textStartsWith (renderType t) "Option<" <;>
                simp [hA, hB, hC, hlen2, h2]
        · have hv : visitUnionGuarded imports arms ancestors = [] := by
            simp [visitUnionGuarded, h1, h2, hfil]
          refine ⟨?_, fun _ => hv⟩
          rw [hv]
          constructor
          · intro h
            exact absurd rfl h
          · rintro ⟨-, -, hone, -, -⟩
            simp at hone

/-- C4 witness: a union of two distinct non-null arms and a null arm has two
non-null arms and is not flagged. -/
theorem C4_witness :
    2 ≤ ([TSType.typeRef "A" none, TSType.typeRef "B" none, TSType.nullKeyword].filter
          (fun t => !isNullOrUndef t)).length ∧
    visitUnionGuarded []
      [TSType.typeRef "A" none, TSType.typeRef "B" none, TSType.nullKeyword] [] = [] :=
  ⟨by decide,
   (C4_union_report_conditions []
      [TSType.typeRef "A" none, TSType.typeRef "B" none, TSType.nullKeyword] []).2
     (by decide)⟩

/-- C5: on the union type of the declaration const v: string | null = null,
the fixable prefer-option visitor emits exactly one preferOption report with
interpolation data string and string | null, its fix text is Option<string>,
and replacing only the union node span of the file with that text yields
const v: Option<string> = null, the initializer untouched. -/
theorem C5_nullable_round_trip :
    visitUnionFixable [TSType.typeRef "string" none, TSType.nullKeyword] =
      [⟨"string", "string | null", "Option<string>"⟩] ∧
    replaceNodeSpan "const v: " " = null"
        (renderUnion [TSType.typeRef "string" none, TSType.nullKeyword]) =
      "const v: string | null = null" ∧
    replaceNodeSpan "const v: " " = null" "Option<string>" =
      "const v: Option<string> = null" := by
  refine ⟨by decide, by decide, by decide⟩

end OptionRule

namespace FoldRule

/-- Operands of the binary comparisons isMonadicCheck inspects: the null
literal, the identifier undefined, other identifiers, other expressions. -/
inductive COperand where
  | nullLit
  | undefinedIdent
  | identOp (name : String)
  | otherOperand
deriving DecidableEq

/-- Condition fragment of prefer-fold: a zero-argument method call on an
identifier receiver (rendered as recv.m(), the shape the text regexes of
isMonadicCheck probe), a binary comparison, or any other condition, whose
rendered text matches none of the monadic-method regexes and which is not a
binary null or undefined comparison. -/
inductive Cond where
  | methodCall (recv : String) (m : String)
  | binCmp (op : String) (lhs rhs : COperand)
  | otherCond
deriving DecidableEq

/-- Method names whose regex classifies the condition as an Option check. -/
def optionCheckMethods : List String := ["isSome", "isNone", "isEmpty", "isDefined"]

/-- Method names whose regex classifies the condition as an Either check. -/
def eitherCheckMethods : List String := ["isLeft", "isRight"]

/-- Method names whose regex classifies the condition as a Result check. -/
def resultCheckMethods : List String := ["isSuccess", "isFailure"]

/-- Translation of isMonadicCheck from src/rules/prefer-fold.ts, evaluated on
the condition fragment above: the three method-name regexes in order, then
the strict null-literal comparison branch, then the loose undefined
comparison branch; every other condition is not monadic. -/
def isMonadicCheck (c : Cond) : Bool × String :=
  match c with
  | .methodCall _ m =>
      if m ∈ optionCheckMethods then (true, "Option")
      else if m ∈ eitherCheckMethods then (true, "Either")
      else if m ∈ resultCheckMethods then (true, "Result")
      else (false, "")
  | .binCmp op lhs rhs =>
      if (op = "===" || op = "!==") && (lhs = .nullLit || rhs = .nullLit) then
        (true, "Option")
      else if (op = "==" || op = "!=" || op = "===" || op = "!==") &&
              (lhs = .undefinedIdent || rhs = .undefinedIdent) then
        (true, "Option")
      else (false, "")
  | .otherCond => (false, "")

/-- An if statement of the chain shape prefer-fold walks: node.alternate is
absent, a non-if statement (a plain else block), or another if statement (an
else-if link). -/
inductive IfStmt where
  | noElse (test : Cond)
  | elseBlockEnd (test : Cond)
  | elseIfChain (test : Cond) (next : IfStmt)

/-- The test of the if statement. -/
def testOf : IfStmt → Cond
  | .noElse t => t
  | .elseBlockEnd t => t
  | .elseIfChain t _ => t

/-- Translation of the complexity loop of analyzeIfStatement: start at 1,
add one per alternate met, descending only through else-if links. -/
def complexity : IfStmt → Nat
  | .noElse _ => 1
  | .elseBlockEnd _ => 2
  | .elseIfChain _ next => 1 + complexity next

/-- Interpolation data of a preferFold report. -/
structure FoldReport where
  typeData : String
deriving DecidableEq

/-- Translation of analyzeIfStatement from src/rules/prefer-fold.ts: nothing
unless the test is monadic; report preferFold with the inferred type label
when the chain complexity reaches minComplexity (default 2). -/
def analyzeIfStatement (minComplexity : Nat) (node : IfStmt) : List FoldReport :=
  let mi := isMonadicCheck (testOf node)
  if !mi.1 then []
  else if minComplexity ≤ complexity node then [⟨mi.2⟩] else []

/-- Reports collected when the engine traversal invokes the IfStatement
visitor on every if statement node of the chain: the node itself and every
else-if alternate below it. -/
def chainReports (minComplexity : Nat) : IfStmt → List FoldReport
  | .elseIfChain t next =>
      analyzeIfStatement minComplexity (.elseIfChain t next) ++
        chainReports minComplexity next
  | .noElse t => analyzeIfStatement minComplexity (.noElse t)
  | .elseBlockEnd t => analyzeIfStatement minComplexity (.elseBlockEnd t)

/-- The statement if (option.isSome()) ... else ... of the fold threshold
test fixture. -/
def optionIfElse : IfStmt := .elseBlockEnd (.methodCall "option" "isSome")

/-- C6: on if (option.isSome()) return option.get() else return a literal,
the visitor under the default threshold 2 emits exactly one preferFold report
with type Option, over the full traversal of the statement as well; with
minComplexity 3 the same statement yields no report. -/
theorem C6_fold_complexity_threshold :
    analyzeIfStatement 2 optionIfElse = [⟨"Option"⟩] ∧
    chainReports 2 optionIfElse = [⟨"Option"⟩] ∧
    analyzeIfStatement 3 optionIfElse = [] := by
  refine ⟨by decide, by decide, by decide⟩

/-- The else-if link of the code-bug fixture: else if (result.isFailure())
... else .... -/
def innerFailureIf : IfStmt := .elseBlockEnd (.methodCall "result" "isFailure")

/-- The full chain of the repository test fixture: if (result.isSuccess())
... else if (result.isFailure()) ... else .... -/
def successFailureChain : IfStmt :=
  .elseIfChain (.methodCall "result" "isSuccess") innerFailureIf

/-- C9: the visitor has no outermost-only guard, so the else-if alternate of
the success or failure chain produces its own preferFold report and the
traversal of the whole chain emits two reports, although the repository test
fixture for exactly this input expects a single preferFold error.  This
evaluates the code at the failing input. -/
theorem C9_else_if_double_report :
    analyzeIfStatement 2 innerFailureIf = [⟨"Result"⟩] ∧
    chainReports 2 successFailureChain = [⟨"Result"⟩, ⟨"Result"⟩] := by
  refine ⟨by decide, by decide⟩

end FoldRule

namespace GetRule

/-- The default unsafe method names of no-get-unsafe. -/
def defaultUnsafeMethods : List String := ["get", "getOrThrow", "unwrap", "expect"]

/-- Translation of the fix callback of no-get-unsafe: the replacement text
chosen per unsafe method name from the rendered receiver text.  The fix
reads only node.callee.object, so the arguments of the original call (such
as the message of expect) never reach the replacement. -/
def unsafeFixReplacement (methodName objectText : String) : String :=
  if methodName = "get" then
    objectText ++ ".getOrElse(/* TODO: provide default value */)"
  else if methodName = "getOrThrow" then
    objectText ++ ".getOrElse(/* TODO: provide default value */)"
  else if methodName = "unwrap" then
    objectText ++ ".getOrElse(/* TODO: provide default value */)"
  else if methodName = "expect" then
    objectText ++ ".getOrElse(/* TODO: provide default value */)"
  else
    objectText ++ ".getOrElse(/* TODO: provide default value */)"

/-- C7: for every receiver text, the four per-method fix branches of
no-get-unsafe produce one identical replacement, the receiver followed by
the getOrElse placeholder call; in particular the expect branch coincides
with the get branch, discarding the expect message. -/
theorem C7_uniform_unsafe_fix (objectText : String) :
    List.Forall
      (fun m => unsafeFixReplacement m objectText =
        objectText ++ ".getOrElse(/* TODO: provide default value */)")
      defaultUnsafeMethods ∧
    unsafeFixReplacement "expect" objectText = unsafeFixReplacement "get" objectText := by
  refine ⟨?_, by simp [unsafeFixReplacement]⟩
  simp [List.Forall, defaultUnsafeMethods, unsafeFixReplacement]

end GetRule

namespace ImportsRule

/-- Import specifier shapes of an import declaration: a named import with its
imported-source name and local binding, a default import, and a namespace
import. -/
inductive ImportSpecifier where
  | named (imported : String) (localName : String)
  | defaultSpec (localName : String)
  | namespaceSpec (localName : String)

/-- A top-level import declaration: the source module string and the
specifier list. -/
structure ImportDecl where
  source : String
  specifiers : List ImportSpecifier

/-- The three set views of the registry built by getFunctypeImports. -/
structure FunctypeImports where
  types : List String
  functions : List String
  all : List String

/-- The container type names classified into the types set. -/
def functypeTypeNames : List String := ["Option", "Either", "List", "LazyList", "Task", "Try"]

/-- The helper names of the explicit functions classification branch. -/
def functypeHelperNames : List String := ["Do", "DoAsync", "$"]

/-- Set insertion on the list-backed sets: add the element unless already
present, as Set.prototype.add behaves. -/
def setAdd (s : List String) (x : String) : List String :=
  if x ∈ s then s else x :: s

/-- Processing of one import specifier, mirroring the specifier loop of
getFunctypeImports: a named import records its imported-source name in all
and classifies it into types or functions; a default import records the
literal marker default in all and functions; a namespace import records the
literal marker star in all three sets. -/
def addSpecifier (acc : FunctypeImports) (spec : ImportSpecifier) : FunctypeImports :=
  match spec with
  | .named imported _ =>
      let acc2 : FunctypeImports := { acc with all := setAdd acc.all imported }
      if imported ∈ functypeTypeNames then
        { acc2 with types := setAdd acc2.types imported }
      else if imported ∈ functypeHelperNames then
        { acc2 with functions := setAdd acc2.functions imported }
      else
        { acc2 with functions := setAdd acc2.functions imported }
  | .defaultSpec _ =>
      { acc with all := setAdd acc.all "default",
                 functions := setAdd acc.functions "default" }
  | .namespaceSpec _ =>
      { acc with all := setAdd acc.all "*",
                 types := setAdd acc.types "*",
                 functions := setAdd acc.functions "*" }

/-- Translation of getFunctypeImports from src/utils/functype-detection.ts:
scan the top-level import declarations whose source is the functype package
and fold every specifier into the three sets, starting from empty sets. -/
def getFunctypeImports (program : List ImportDecl) : FunctypeImports :=
  program.foldl
    (fun acc decl =>
      if decl.source = "functype" then decl.specifiers.foldl addSpecifier acc
      else acc)
    ⟨[], [], []⟩

/-- C10: the registry records imported-source names and fixed markers, never
local binding names: the aliased named import of Option as Opt records
Option in types and all and records Opt nowhere; a default import records
the literal string default in functions and all, not the local binding, and
leaves types empty; a namespace import records the literal marker star in
all three sets and does not record the local binding. -/
theorem C10_registry_records_imported_names :
    (("Option" ∈ (getFunctypeImports [⟨"functype", [.named "Option" "Opt"]⟩]).types) ∧
     ("Option" ∈ (getFunctypeImports [⟨"functype", [.named "Option" "Opt"]⟩]).all) ∧
     ¬("Opt" ∈ (getFunctypeImports [⟨"functype", [.named "Option" "Opt"]⟩]).types) ∧
     ¬("Opt" ∈ (getFunctypeImports [⟨"functype", [.named "Option" "Opt"]⟩]).all) ∧
     ¬("Opt" ∈ (getFunctypeImports [⟨"functype", [.named "Option" "Opt"]⟩]).functions)) ∧
    (("default" ∈ (getFunctypeImports [⟨"functype", [.defaultSpec "myFunctype"]⟩]).functions) ∧
     ("default" ∈ (getFunctypeImports [⟨"functype", [.defaultSpec "myFunctype"]⟩]).all) ∧
     ¬("myFunctype" ∈ (getFunctypeImports [⟨"functype", [.defaultSpec "myFunctype"]⟩]).functions) ∧
     ¬("myFunctype" ∈ (getFunctypeImports [⟨"functype", [.defaultSpec "myFunctype"]⟩]).all) ∧
     (getFunctypeImports [⟨"functype", [.defaultSpec "myFunctype"]⟩]).types = []) ∧
    (("*" ∈ (getFunctypeImports [⟨"functype", [.namespaceSpec "FT"]⟩]).types) ∧
     ("*" ∈ (getFunctypeImports [⟨"functype", [.namespaceSpec "FT"]⟩]).functions) ∧
     ("*" ∈ (getFunctypeImports [⟨"functype", [.namespaceSpec "FT"]⟩]).all) ∧
     ¬("FT" ∈ (getFunctypeImports [⟨"functype", [.namespaceSpec "FT"]⟩]).all)) := by
  decide

end ImportsRule
